import Mathlib

/-!
Verification of the operator-execution layer of `datafusion-rs`
(`src/execution/aggregate.rs` and `src/execution/projection.rs`), modelled as a
shallow embedding.  Machine integers appear only as values that are compared
(never arithmetic), so `Int` is used for `i32`; `f64` values appear only as
values that are compared, so they are modelled as rationals.  Rust `Result` is
`Except`/the `ok`/`err` arms of `Outcome`; aborts coming from `unwrap`,
`unimplemented` and similar macros are the `Outcome.panic` arm, kept distinct
from error values because the spec distinguishes the two.
-/

namespace DF

/-- Arrow data types reachable in the two source files. -/
inductive DataType where
  | int32
  | float64
  | utf8
  deriving DecidableEq, Repr

/-- `logicalplan::ScalarValue` variants used by the aggregate code. -/
inductive ScalarValue where
  | int32 (v : Int)
  | float64 (v : ℚ)
  | utf8 (s : String)
  deriving DecidableEq, Repr

/-- Contents of an `ArrayRef` for the array types the code downcasts to. -/
inductive ArrayData where
  | int32 (vals : List Int)
  | float64 (vals : List ℚ)
  | utf8 (vals : List String)
  deriving DecidableEq, Repr

/-- `Array::data_type`. -/
def ArrayData.dataType : ArrayData → DataType
  | .int32 _ => .int32
  | .float64 _ => .float64
  | .utf8 _ => .utf8

/-- `Array::len`. -/
def ArrayData.length : ArrayData → Nat
  | .int32 vs => vs.length
  | .float64 vs => vs.length
  | .utf8 vs => vs.length

/-- `arrow::datatypes::Field`: name, type, nullability. -/
structure Field where
  name : String
  dataType : DataType
  nullable : Bool
  deriving DecidableEq, Repr

instance : Inhabited Field := ⟨⟨"", .int32, false⟩⟩

/-- `arrow::datatypes::Schema`: an ordered list of fields. -/
abbrev Schema := List Field

/-- `arrow::record_batch::RecordBatch`: a schema and equal-length columns. -/
structure RecordBatch where
  schema : Schema
  columns : List ArrayData
  deriving DecidableEq, Repr

/-- `RecordBatch::num_rows` reads the length of the first column. -/
def RecordBatch.numRows (b : RecordBatch) : Nat :=
  match b.columns.head? with
  | some c => c.length
  | none => 0

/-- `ExecutionError` variants constructed in the two source files. -/
inductive ExecutionError where
  | general (msg : String)
  | notImplemented (msg : String)
  | executionError (msg : String)
  deriving DecidableEq, Repr

/-- Result of running one fallible step of the code: `ok`/`err` mirror Rust's
`Result`, while `panic` records an abort (a `panic`/`unimplemented` macro or a
failed `unwrap`), which is not an error value handed to the caller. -/
inductive Outcome (α : Type) where
  | ok (val : α)
  | err (e : ExecutionError)
  | panic (msg : String)
  deriving DecidableEq, Repr

/-- Modelled from the spec and the call sites in aggregate.rs: the aggregate
function kinds of `expression::AggregateType` (that source file is not part of
this repository slice; the spec lists MIN, MAX, SUM, COUNT). -/
inductive AggregateType where
  | min
  | max
  | sum
  | count
  deriving DecidableEq, Repr

/-- Modelled from the spec and the call sites: `expression::RuntimeExpr` (its
source file is not in this slice).  A compiled expression carries a column
evaluator together with its declared name and type; an aggregate expression
carries the function kind, the argument evaluators and the declared output
type. -/
inductive RuntimeExpr where
  | compiled (name : String) (dataType : DataType)
      (func : RecordBatch → Except ExecutionError ArrayData)
  | aggregateFunction (name : String) (f : AggregateType)
      (args : List (RecordBatch → Except ExecutionError ArrayData)) (t : DataType)

/-- `RuntimeExpr::get_func`; only ever called on compiled expressions. -/
def RuntimeExpr.get_func : RuntimeExpr → (RecordBatch → Except ExecutionError ArrayData)
  | .compiled _ _ f => f
  | .aggregateFunction _ _ _ _ => fun _ => .error (.general "not a compiled expression")

/-- `RuntimeExpr::get_name`. -/
def RuntimeExpr.get_name : RuntimeExpr → String
  | .compiled n _ _ => n
  | .aggregateFunction n _ _ _ => n

/-- `RuntimeExpr::get_type`. -/
def RuntimeExpr.get_type : RuntimeExpr → DataType
  | .compiled _ t _ => t
  | .aggregateFunction _ _ _ t => t

/-- Rust's `collect::<Result<Vec<_>>>()`: stop at the first error. -/
def exceptMapM {α β : Type} (f : α → Except ExecutionError β) :
    List α → Except ExecutionError (List β)
  | [] => .ok []
  | x :: xs =>
    match f x with
    | .ok b =>
      match exceptMapM f xs with
      | .ok bs => .ok (b :: bs)
      | .error e => .error e
    | .error e => .error e

/-- The same collection when the per-item step may also abort. -/
def outcomeMapM {α β : Type} (f : α → Outcome β) : List α → Outcome (List β)
  | [] => .ok []
  | x :: xs =>
    match f x with
    | .ok b =>
      match outcomeMapM f xs with
      | .ok bs => .ok (b :: bs)
      | .err e => .err e
      | .panic m => .panic m
    | .err e => .err e
    | .panic m => .panic m

/-- `arrow::array_ops::min`: fold of the pairwise minimum over the values,
`none` on an empty array. -/
def listMin {α : Type} [LinearOrder α] : List α → Option α
  | [] => none
  | x :: xs => some (xs.foldl min x)

/-- `arrow::array_ops::max`: fold of the pairwise maximum over the values,
`none` on an empty array. -/
def listMax {α : Type} [LinearOrder α] : List α → Option α
  | [] => none
  | x :: xs => some (xs.foldl max x)

/-- `array_min` (aggregate.rs): whole-array MIN for Int32 and Float64 declared
types; any other declared type is a NotImplemented error.  A mismatch between
the declared type and the actual array aborts (the `downcast_ref().unwrap()`).
The Rust builds a one-slot output array that is null when the input is empty;
the null slot is modelled as an empty value list. -/
def array_min (array : ArrayData) (dt : DataType) : Outcome ArrayData :=
  match dt with
  | .int32 =>
    match array with
    | .int32 vals => .ok (.int32 (listMin vals).toList)
    | _ => .panic "downcast to Int32Array failed"
  | .float64 =>
    match array with
    | .float64 vals => .ok (.float64 (listMin vals).toList)
    | _ => .panic "downcast to Float64Array failed"
  | _ => .err (.notImplemented "Unsupported data type for MIN")

/-- `array_max` (aggregate.rs), same shape as `array_min`. -/
def array_max (array : ArrayData) (dt : DataType) : Outcome ArrayData :=
  match dt with
  | .int32 =>
    match array with
    | .int32 vals => .ok (.int32 (listMax vals).toList)
    | _ => .panic "downcast to Int32Array failed"
  | .float64 =>
    match array with
    | .float64 vals => .ok (.float64 (listMax vals).toList)
    | _ => .panic "downcast to Float64Array failed"
  | _ => .err (.notImplemented "Unsupported data type for MAX")

/-- One aggregate expression of the grouping-free branch of
`AggregateRelation::next`: evaluate the first argument over the whole batch,
then reduce the resulting column with the function kind.  An evaluator error is
replaced by a fixed ExecutionError message, unsupported kinds are a
NotImplemented error, and a non-aggregate expression is a General error. -/
def aggregate_column (batch : RecordBatch) : RuntimeExpr → Outcome ArrayData
  | .aggregateFunction _ f args t =>
    match args.get? 0 with
    | none => .panic "no aggregate argument"
    | some arg =>
      match arg batch with
      | .ok array =>
        match f with
        | .min => array_min array t
        | .max => array_max array t
        | _ => .err (.notImplemented "Unsupported aggregate function")
      | .error _ => .err (.executionError "Failed to evaluate argument to aggregate function")
  | _ => .err (.general "Invalid aggregate expression")

/-- Grouping-free branch of `AggregateRelation::next`: one reduced column per
aggregate expression, assembled under the configured output schema. -/
def aggregate_no_group (schema : Schema) (aggr_expr : List RuntimeExpr)
    (batch : RecordBatch) : Outcome (Option RecordBatch) :=
  match outcomeMapM (aggregate_column batch) aggr_expr with
  | .ok columns => .ok (some ⟨schema, columns⟩)
  | .err e => .err e
  | .panic m => .panic m

/-- `GroupByScalar` (aggregate.rs): scalar variants usable in a GROUP BY key.
Unsigned widths are `Nat`, signed widths are `Int` (keys are only compared,
never computed with, so width bounds are irrelevant here). -/
inductive GroupByScalar where
  | boolean (v : Bool)
  | uint8 (v : Nat)
  | uint16 (v : Nat)
  | uint32 (v : Nat)
  | uint64 (v : Nat)
  | int8 (v : Int)
  | int16 (v : Int)
  | int32 (v : Int)
  | int64 (v : Int)
  | utf8 (s : String)
  deriving DecidableEq, Repr

/-- `MinFunction` (aggregate.rs): the declared output type plus the running
value, `none` before any input. -/
structure MinFunction where
  data_type : DataType
  value : Option ScalarValue
  deriving DecidableEq, Repr

/-- `MinFunction::new`. -/
def MinFunction.new (dt : DataType) : MinFunction := ⟨dt, none⟩

/-- `MinFunction::accumulate` has an empty body in the source: the state is
returned unchanged. -/
def MinFunction.accumulate (f : MinFunction) (_value : Option ScalarValue) : MinFunction := f

/-- `MinFunction::result`. -/
def MinFunction.result (f : MinFunction) : Option ScalarValue := f.value

/-- `AggregateEntry` (aggregate.rs): one accumulator per aggregate expression.
`MinFunction` is the only accumulator the code can construct. -/
structure AggregateEntry where
  aggr_values : List MinFunction
  deriving DecidableEq, Repr

/-- `AggregateEntry::accumulate`: feed one value to the i-th accumulator.
Callers always index within bounds (the loop runs over this very length). -/
def AggregateEntry.accumulate (e : AggregateEntry) (i : Nat)
    (value : Option ScalarValue) : AggregateEntry :=
  match e.aggr_values.get? i with
  | some f => ⟨e.aggr_values.set i (f.accumulate value)⟩
  | none => e

/-- `create_aggregate_entry`: one fresh accumulator per aggregate expression.
Only MIN has a constructor; every other kind, and any non-aggregate
expression, hits a `panic` arm. -/
def create_aggregate_entry (aggr_expr : List RuntimeExpr) : Outcome AggregateEntry :=
  match outcomeMapM (fun e =>
    match e with
    | RuntimeExpr.aggregateFunction _ f _ t =>
      match f with
      | .min => Outcome.ok (MinFunction.new t)
      | _ => Outcome.panic "unsupported aggregate function kind"
    | _ => Outcome.panic "expected aggregate expression") aggr_expr with
  | .ok fs => .ok ⟨fs⟩
  | .err e => .err e
  | .panic m => .panic m

/-- Row-value extraction inside `update_accumulators`: dispatch on the declared
output type, downcast the evaluated column and read the row; a declared type
other than Int32/Float64 and a downcast mismatch both abort.  (Arrow's
`value(row)` is an unchecked buffer read; reads past the end are modelled by a
default value, and no claim exercises them.) -/
def scalar_at (array : ArrayData) (row : Nat) (t : DataType) : Outcome (Option ScalarValue) :=
  match t with
  | .int32 =>
    match array with
    | .int32 vals => .ok (some (.int32 (vals.getD row 0)))
    | _ => .panic "downcast to Int32Array failed"
  | .float64 =>
    match array with
    | .float64 vals => .ok (some (.float64 (vals.getD row 0)))
    | _ => .panic "downcast to Float64Array failed"
  | _ => .panic "unsupported aggregate output type"

/-- One iteration of the `update_accumulators` loop body for expression
position `j`: evaluate the aggregate argument, extract the row scalar, feed it
to the j-th accumulator.  Evaluator failure and non-aggregate expressions hit
`panic` arms here (unlike the grouping-free branch). -/
def update_one (batch : RecordBatch) (row : Nat) (entry : AggregateEntry) (j : Nat) :
    RuntimeExpr → Outcome AggregateEntry
  | RuntimeExpr.aggregateFunction _ _ args t =>
    match args.get? 0 with
    | none => .panic "no aggregate argument"
    | some arg =>
      match arg batch with
      | .ok array =>
        match scalar_at array row t with
        | .ok value => .ok (entry.accumulate j value)
        | .err e => .err e
        | .panic m => .panic m
      | .error _ => .panic "failed to evaluate aggregate argument"
  | _ => .panic "expected aggregate expression"

/-- The `update_accumulators` loop, counting down the remaining positions
while `j` walks up; `aggr_expr` is indexed at each position as in the source
(an out-of-range index would abort). -/
def update_accumulators_go (batch : RecordBatch) (row : Nat)
    (aggr_expr : List RuntimeExpr) :
    Nat → Nat → AggregateEntry → Outcome AggregateEntry
  | 0, _, entry => .ok entry
  | count + 1, j, entry =>
    match aggr_expr.get? j with
    | none => .panic "aggregate expression index out of bounds"
    | some e =>
      match update_one batch row entry j e with
      | .ok entry2 => update_accumulators_go batch row aggr_expr count (j + 1) entry2
      | .err e2 => .err e2
      | .panic m => .panic m

/-- `update_accumulators` (aggregate.rs): run the loop over every accumulator
position of the entry. -/
def update_accumulators (batch : RecordBatch) (row : Nat) (entry : AggregateEntry)
    (aggr_expr : List RuntimeExpr) : Outcome AggregateEntry :=
  update_accumulators_go batch row aggr_expr entry.aggr_values.length 0 entry

/-- Group-key dispatch for one group column at one row (`AggregateRelation::next`,
grouped branch): only Int32 and Utf8 columns are implemented, anything else hits
the `unimplemented` arm. -/
def group_scalar (col : ArrayData) (row : Nat) : Outcome GroupByScalar :=
  match col with
  | .int32 vals => .ok (.int32 (vals.getD row 0))
  | .utf8 vals => .ok (.utf8 (vals.getD row ""))
  | _ => .panic "unimplemented group key type"

/-- The group key of one row: one scalar per evaluated group-by column, in
declaration order. -/
def key_for_row (group_by_keys : List ArrayData) (row : Nat) : Outcome (List GroupByScalar) :=
  outcomeMapM (fun col => group_scalar col row) group_by_keys

/-- The grouping map: association list from group key to entry, in first-seen
order.  (The source uses `FnvHashMap`; only lookup by structural key equality
and the key set matter to the executed code, its materialization loop over the
map being empty.) -/
abbrev GroupMap := List (List GroupByScalar × AggregateEntry)

/-- `map.get(&key)`: first binding whose key is structurally equal. -/
def lookup_group (m : GroupMap) (key : List GroupByScalar) : Option AggregateEntry :=
  match m.find? (fun p => p.1 == key) with
  | some p => some p.2
  | none => none

/-- In-place mutation of the entry bound to `key` (the source mutates through
`Rc<RefCell<..>>` without reinserting). -/
def replace_group (m : GroupMap) (key : List GroupByScalar) (entry : AggregateEntry) :
    GroupMap :=
  m.map (fun p => if p.1 == key then (p.1, entry) else p)

/-- One row of the grouped loop: build the key, then either update the existing
entry or create, update and insert a fresh one. -/
def process_row (batch : RecordBatch) (group_by_keys : List ArrayData)
    (aggr_expr : List RuntimeExpr) (row : Nat) (m : GroupMap) : Outcome GroupMap :=
  match key_for_row group_by_keys row with
  | .ok key =>
    match lookup_group m key with
    | some entry =>
      match update_accumulators batch row entry aggr_expr with
      | .ok entry2 => .ok (replace_group m key entry2)
      | .err e => .err e
      | .panic msg => .panic msg
    | none =>
      match create_aggregate_entry aggr_expr with
      | .ok entry =>
        match update_accumulators batch row entry aggr_expr with
        | .ok entry2 => .ok (m ++ [(key, entry2)])
        | .err e => .err e
        | .panic msg => .panic msg
      | .err e => .err e
      | .panic msg => .panic msg
  | .err e => .err e
  | .panic msg => .panic msg

/-- The grouped loop over rows `row, row+1, ...` while `count` rows remain. -/
def process_rows_go (batch : RecordBatch) (group_by_keys : List ArrayData)
    (aggr_expr : List RuntimeExpr) :
    Nat → Nat → GroupMap → Outcome GroupMap
  | 0, _, m => .ok m
  | count + 1, row, m =>
    match process_row batch group_by_keys aggr_expr row m with
    | .ok m2 => process_rows_go batch group_by_keys aggr_expr count (row + 1) m2
    | .err e => .err e
    | .panic msg => .panic msg

/-- The whole per-batch grouping loop, starting from the empty map that
`AggregateRelation::next` allocates locally on every call. -/
def process_rows (batch : RecordBatch) (group_by_keys : List ArrayData)
    (aggr_expr : List RuntimeExpr) : Outcome GroupMap :=
  process_rows_go batch group_by_keys aggr_expr batch.numRows 0 []

/-- Grouped branch of `AggregateRelation::next`: evaluate the group-by columns,
run the per-row grouping loop, then materialize.  The emitted columns are the
full evaluated group-by columns; the loop meant to append aggregate result
columns is empty in the source (a TODO), so the grouping map is dropped. -/
def aggregate_with_groups (schema : Schema) (group_expr aggr_expr : List RuntimeExpr)
    (batch : RecordBatch) : Outcome (Option RecordBatch) :=
  match exceptMapM (fun e => e.get_func batch) group_expr with
  | .error e => .err e
  | .ok group_by_keys =>
    match process_rows batch group_by_keys aggr_expr with
    | .ok _ => .ok (some ⟨schema, group_by_keys⟩)
    | .err e => .err e
    | .panic msg => .panic msg

/-- `AggregateRelation::next` as a function of the outcome of the single input
pull the call performs: exhaustion and upstream errors propagate, otherwise the
pulled batch goes through the grouping-free or the grouped branch. -/
def aggregate_next_from (schema : Schema) (group_expr aggr_expr : List RuntimeExpr)
    (pull : Outcome (Option RecordBatch)) : Outcome (Option RecordBatch) :=
  match pull with
  | .ok none => .ok none
  | .ok (some batch) =>
    if group_expr.isEmpty then aggregate_no_group schema aggr_expr batch
    else aggregate_with_groups schema group_expr aggr_expr batch
  | .err e => .err e
  | .panic msg => .panic msg

/-- Pull one batch from a queued input (a well-behaved upstream operator). -/
def pull_batch : List RecordBatch → Outcome (Option RecordBatch) × List RecordBatch
  | [] => (.ok none, [])
  | b :: rest => (.ok (some b), rest)

/-- One `next()` call of the aggregate operator over a queued input: the call's
result, and the input left for later calls. -/
def aggregate_next (schema : Schema) (group_expr aggr_expr : List RuntimeExpr)
    (input : List RecordBatch) : Outcome (Option RecordBatch) × List RecordBatch :=
  let p := pull_batch input
  (aggregate_next_from schema group_expr aggr_expr p.1, p.2)

/-- `ProjectRelation::next` as a function of the outcome of its single input
pull: evaluate every configured evaluator in declaration order (first error
short-circuits), and assemble the outputs under a schema built fresh from each
evaluator's declared name and type, every field nullable. -/
def project_next_from (expr : List RuntimeExpr) (pull : Outcome (Option RecordBatch)) :
    Outcome (Option RecordBatch) :=
  match pull with
  | .ok none => .ok none
  | .ok (some batch) =>
    match exceptMapM (fun e => e.get_func batch) expr with
    | .ok projected_columns =>
      .ok (some ⟨expr.map (fun e => ⟨e.get_name, e.get_type, true⟩), projected_columns⟩)
    | .error e => .err e
  | .err e => .err e
  | .panic msg => .panic msg

/-- Modelled from the spec: the compiled evaluator for `Expr::Column(i)`
returns input column `i` of the batch (`expression::compile_expr` is not part
of this repository slice; the spec defines a column evaluator as a pure
function from a batch to a materialized column). -/
def column_evaluator (i : Nat) : RecordBatch → Except ExecutionError ArrayData :=
  fun batch =>
    match batch.columns.get? i with
    | some col => .ok col
    | none => .error (.general "invalid column index")

/-- Modelled from the spec: compiling `Expr::Column(i)` against a schema yields
a compiled expression whose declared name and type are those of input field `i`
and whose evaluator reproduces column `i`. -/
def compile_column (schema : Schema) (i : Nat) : RuntimeExpr :=
  .compiled (schema.getD i default).name (schema.getD i default).dataType (column_evaluator i)

/-- The group keys bound in a grouping map, in binding order. -/
def group_keys_of (m : GroupMap) : List (List GroupByScalar) := m.map Prod.fst

/-- The slot a key hits in the grouping map: the position of the first binding
whose key is structurally equal.  Rows fed to the same slot share one Group
Entry (the source mutates that binding's `Rc<RefCell<AggregateEntry>>`). -/
def entry_slot (m : GroupMap) (key : List GroupByScalar) : Nat :=
  m.findIdx (fun p => p.1 == key)

/- Concrete fixtures used by counterexamples, code-bug evaluations and
witnesses. -/

/-- Output schema of a single-aggregate grouping-free query. -/
def sch1 : Schema := [⟨"min_v", .int32, false⟩]

/-- Schema of a one-column Int32 input. -/
def schA : Schema := [⟨"v", .int32, false⟩]

/-- First input batch: Int32 column `[3, 1, 2]`. -/
def bA : RecordBatch := ⟨schA, [.int32 [3, 1, 2]]⟩

/-- Second input batch: Int32 column `[5]`. -/
def bB : RecordBatch := ⟨schA, [.int32 [5]]⟩

/-- Schema of a one-column Float64 input. -/
def schAq : Schema := [⟨"v", .float64, false⟩]

/-- Float64 input batch with column `[3, 1, 2]`. -/
def bAq : RecordBatch := ⟨schAq, [.float64 [3, 1, 2]]⟩

/-- A single MIN aggregate expression over column 0, Int32. -/
def aexprMin : List RuntimeExpr := [.aggregateFunction "min" .min [column_evaluator 0] .int32]

/-- Schema of a two-column (group, value) Int32 input. -/
def sch2 : Schema := [⟨"g", .int32, false⟩, ⟨"v", .int32, false⟩]

/-- One group-by expression over column 0, Int32. -/
def gexpr : List RuntimeExpr := [.compiled "g" .int32 (column_evaluator 0)]

/-- A single MIN aggregate expression over column 1, Int32. -/
def aexprV : List RuntimeExpr := [.aggregateFunction "min" .min [column_evaluator 1] .int32]

/-- A single MAX aggregate expression over column 1, Int32. -/
def aexprMax : List RuntimeExpr := [.aggregateFunction "max" .max [column_evaluator 1] .int32]

/-- A single SUM aggregate expression over column 0, Int32. -/
def aexprSum : List RuntimeExpr := [.aggregateFunction "sum" .sum [column_evaluator 0] .int32]

/-- Grouped input, first batch: group keys `[7, 7]`, values `[1, 2]`. -/
def b1 : RecordBatch := ⟨sch2, [.int32 [7, 7], .int32 [1, 2]]⟩

/-- Grouped input, second batch: group key `[7]`, value `[3]`. -/
def b2 : RecordBatch := ⟨sch2, [.int32 [7], .int32 [3]]⟩

/-- Grouped input with a duplicated key: group keys `[1, 1]`, values `[3, 4]`. -/
def bC2 : RecordBatch := ⟨sch2, [.int32 [1, 1], .int32 [3, 4]]⟩

/-- Schema of a two-column (group, value) Float64 input. -/
def schF : Schema := [⟨"g", .float64, false⟩, ⟨"v", .float64, false⟩]

/-- One group-by expression over column 0, Float64 (a type the group-key
dispatch does not implement). -/
def gexprF : List RuntimeExpr := [.compiled "g" .float64 (column_evaluator 0)]

/-- A single MIN aggregate expression over column 1, Float64. -/
def aexprF : List RuntimeExpr := [.aggregateFunction "min" .min [column_evaluator 1] .float64]

/-- Float64 grouped input batch. -/
def bF : RecordBatch := ⟨schF, [.float64 [1], .float64 [2]]⟩

/-- Evaluated group-by columns for the C6 witness: keys `[1, 2, 1]`. -/
def gkW : List ArrayData := [.int32 [1, 2, 1]]

/-- Input batch for the C6 witness. -/
def bW : RecordBatch := ⟨schA, [.int32 [1, 2, 1]]⟩

/-- The grouping map `process_rows` produces for `bW`/`gkW`/`aexprMin`. -/
def mW : GroupMap :=
  [([GroupByScalar.int32 1], ⟨[MinFunction.new .int32]⟩),
   ([GroupByScalar.int32 2], ⟨[MinFunction.new .int32]⟩)]

/-- A compiled expression whose evaluator always fails. -/
def failing_expr : RuntimeExpr :=
  .compiled "boom" .int32 (fun _ => .error (.general "boom"))

theorem foldl_min_mem {α : Type} [LinearOrder α] (xs : List α) (x : α) :
    xs.foldl min x ∈ x :: xs := by
  induction xs generalizing x with
  | nil => exact List.mem_cons_self x []
  | cons y ys ih =>
    have h := ih (min x y)
    rw [List.foldl_cons]
    rcases List.mem_cons.mp h with h1 | h1
    · rw [h1]
      rcases min_choice x y with h2 | h2
      · rw [h2]; exact List.mem_cons_self x (y :: ys)
      · rw [h2]; exact List.mem_cons.mpr (Or.inr (List.mem_cons_self y ys))
    · exact List.mem_cons.mpr (Or.inr (List.mem_cons.mpr (Or.inr h1)))

theorem foldl_min_le {α : Type} [LinearOrder α] (xs : List α) (x : α) :
    ∀ y ∈ x :: xs, xs.foldl min x ≤ y := by
  induction xs generalizing x with
  | nil =>
    intro y hy
    rcases List.mem_cons.mp hy with h | h
    · exact le_of_eq h.symm
    · cases h
  | cons z zs ih =>
    intro y hy
    rw [List.foldl_cons]
    have hhead := ih (min x z) (min x z) (List.mem_cons_self _ _)
    rcases List.mem_cons.mp hy with h | h
    · exact h ▸ hhead.trans (min_le_left x z)
    · rcases List.mem_cons.mp h with h1 | h1
      · exact h1 ▸ hhead.trans (min_le_right x z)
      · exact ih (min x z) y (List.mem_cons.mpr (Or.inr h1))

theorem foldl_max_mem {α : Type} [LinearOrder α] (xs : List α) (x : α) :
    xs.foldl max x ∈ x :: xs := by
  induction xs generalizing x with
  | nil => exact List.mem_cons_self x []
  | cons y ys ih =>
    have h := ih (max x y)
    rw [List.foldl_cons]
    rcases List.mem_cons.mp h with h1 | h1
    · rw [h1]
      rcases max_choice x y with h2 | h2
      · rw [h2]; exact List.mem_cons_self x (y :: ys)
      · rw [h2]; exact List.mem_cons.mpr (Or.inr (List.mem_cons_self y ys))
    · exact List.mem_cons.mpr (Or.inr (List.mem_cons.mpr (Or.inr h1)))

theorem foldl_le_max {α : Type} [LinearOrder α] (xs : List α) (x : α) :
    ∀ y ∈ x :: xs, y ≤ xs.foldl max x := by
  induction xs generalizing x with
  | nil =>
    intro y hy
    rcases List.mem_cons.mp hy with h | h
    · exact le_of_eq h
    · cases h
  | cons z zs ih =>
    intro y hy
    rw [List.foldl_cons]
    have hhead := ih (max x z) (max x z) (List.mem_cons_self _ _)
    rcases List.mem_cons.mp hy with h | h
    · exact h ▸ (le_max_left x z).trans hhead
    · rcases List.mem_cons.mp h with h1 | h1
      · exact h1 ▸ (le_max_right x z).trans hhead
      · exact ih (max x z) y (List.mem_cons.mpr (Or.inr h1))

theorem no_group_min_int32 (sch : Schema) (nm : String)
    (ev : RecordBatch → Except ExecutionError ArrayData) (batch : RecordBatch)
    (vs : List Int) (hev : ev batch = .ok (.int32 vs)) (hne : vs ≠ []) :
    ∃ v : Int,
      aggregate_next_from sch [] [.aggregateFunction nm .min [ev] .int32] (.ok (some batch))
        = .ok (some ⟨sch, [.int32 [v]]⟩) ∧ v ∈ vs ∧ ∀ x ∈ vs, v ≤ x := by
  obtain ⟨x, xs, rfl⟩ := List.exists_cons_of_ne_nil hne
  refine ⟨xs.foldl min x, ?_, foldl_min_mem xs x, foldl_min_le xs x⟩
  simp [aggregate_next_from, aggregate_no_group, outcomeMapM, aggregate_column, hev,
    array_min, listMin]

theorem no_group_max_int32 (sch : Schema) (nm : String)
    (ev : RecordBatch → Except ExecutionError ArrayData) (batch : RecordBatch)
    (vs : List Int) (hev : ev batch = .ok (.int32 vs)) (hne : vs ≠ []) :
    ∃ v : Int,
      aggregate_next_from sch [] [.aggregateFunction nm .max [ev] .int32] (.ok (some batch))
        = .ok (some ⟨sch, [.int32 [v]]⟩) ∧ v ∈ vs ∧ ∀ x ∈ vs, x ≤ v := by
  obtain ⟨x, xs, rfl⟩ := List.exists_cons_of_ne_nil hne
  refine ⟨xs.foldl max x, ?_, foldl_max_mem xs x, foldl_le_max xs x⟩
  simp [aggregate_next_from, aggregate_no_group, outcomeMapM, aggregate_column, hev,
    array_max, listMax]

theorem no_group_min_float64 (sch : Schema) (nm : String)
    (ev : RecordBatch → Except ExecutionError ArrayData) (batch : RecordBatch)
    (vs : List ℚ) (hev : ev batch = .ok (.float64 vs)) (hne : vs ≠ []) :
    ∃ v : ℚ,
      aggregate_next_from sch [] [.aggregateFunction nm .min [ev] .float64] (.ok (some batch))
        = .ok (some ⟨sch, [.float64 [v]]⟩) ∧ v ∈ vs ∧ ∀ x ∈ vs, v ≤ x := by
  obtain ⟨x, xs, rfl⟩ := List.exists_cons_of_ne_nil hne
  refine ⟨xs.foldl min x, ?_, foldl_min_mem xs x, foldl_min_le xs x⟩
  simp [aggregate_next_from, aggregate_no_group, outcomeMapM, aggregate_column, hev,
    array_min, listMin]

theorem no_group_max_float64 (sch : Schema) (nm : String)
    (ev : RecordBatch → Except ExecutionError ArrayData) (batch : RecordBatch)
    (vs : List ℚ) (hev : ev batch = .ok (.float64 vs)) (hne : vs ≠ []) :
    ∃ v : ℚ,
      aggregate_next_from sch [] [.aggregateFunction nm .max [ev] .float64] (.ok (some batch))
        = .ok (some ⟨sch, [.float64 [v]]⟩) ∧ v ∈ vs ∧ ∀ x ∈ vs, x ≤ v := by
  obtain ⟨x, xs, rfl⟩ := List.exists_cons_of_ne_nil hne
  refine ⟨xs.foldl max x, ?_, foldl_max_mem xs x, foldl_le_max xs x⟩
  simp [aggregate_next_from, aggregate_no_group, outcomeMapM, aggregate_column, hev,
    array_max, listMax]

/-- C1: for every input batch with a numeric column C of type Int32 or Float64
(reached through the aggregate argument evaluator), the aggregate operator with
no group-by expressions and a single MIN (resp. MAX) aggregate expression over
C returns a single-row, single-column batch whose only value is a value of C
that is a lower (resp. upper) bound of all values in C, i.e. the minimum
(resp. maximum). -/
theorem c1_no_group_min_max :
    (∀ (sch : Schema) (nm : String) (ev : RecordBatch → Except ExecutionError ArrayData)
        (batch : RecordBatch) (vs : List Int),
        ev batch = .ok (.int32 vs) → vs ≠ [] →
        ∃ v : Int,
          aggregate_next_from sch [] [.aggregateFunction nm .min [ev] .int32] (.ok (some batch))
            = .ok (some ⟨sch, [.int32 [v]]⟩) ∧ v ∈ vs ∧ ∀ x ∈ vs, v ≤ x)
    ∧ (∀ (sch : Schema) (nm : String) (ev : RecordBatch → Except ExecutionError ArrayData)
        (batch : RecordBatch) (vs : List Int),
        ev batch = .ok (.int32 vs) → vs ≠ [] →
        ∃ v : Int,
          aggregate_next_from sch [] [.aggregateFunction nm .max [ev] .int32] (.ok (some batch))
            = .ok (some ⟨sch, [.int32 [v]]⟩) ∧ v ∈ vs ∧ ∀ x ∈ vs, x ≤ v)
    ∧ (∀ (sch : Schema) (nm : String) (ev : RecordBatch → Except ExecutionError ArrayData)
        (batch : RecordBatch) (vs : List ℚ),
        ev batch = .ok (.float64 vs) → vs ≠ [] →
        ∃ v : ℚ,
          aggregate_next_from sch [] [.aggregateFunction nm .min [ev] .float64] (.ok (some batch))
            = .ok (some ⟨sch, [.float64 [v]]⟩) ∧ v ∈ vs ∧ ∀ x ∈ vs, v ≤ x)
    ∧ ∀ (sch : Schema) (nm : String) (ev : RecordBatch → Except ExecutionError ArrayData)
        (batch : RecordBatch) (vs : List ℚ),
        ev batch = .ok (.float64 vs) → vs ≠ [] →
        ∃ v : ℚ,
          aggregate_next_from sch [] [.aggregateFunction nm .max [ev] .float64] (.ok (some batch))
            = .ok (some ⟨sch, [.float64 [v]]⟩) ∧ v ∈ vs ∧ ∀ x ∈ vs, x ≤ v :=
  ⟨no_group_min_int32, no_group_max_int32, no_group_min_float64, no_group_max_float64⟩

/-- Witness for C1: all four combinations instantiated on the concrete column
`[3, 1, 2]`. -/
theorem c1_no_group_min_max_witness :
    (∃ v : Int,
      aggregate_next_from sch1 [] [.aggregateFunction "min" .min [column_evaluator 0] .int32]
          (.ok (some bA))
        = .ok (some ⟨sch1, [.int32 [v]]⟩) ∧ v ∈ [3, 1, 2] ∧ ∀ x ∈ [3, 1, 2], v ≤ x)
    ∧ (∃ v : Int,
      aggregate_next_from sch1 [] [.aggregateFunction "max" .max [column_evaluator 0] .int32]
          (.ok (some bA))
        = .ok (some ⟨sch1, [.int32 [v]]⟩) ∧ v ∈ [3, 1, 2] ∧ ∀ x ∈ [3, 1, 2], x ≤ v)
    ∧ (∃ v : ℚ,
      aggregate_next_from sch1 [] [.aggregateFunction "min" .min [column_evaluator 0] .float64]
          (.ok (some bAq))
        = .ok (some ⟨sch1, [.float64 [v]]⟩) ∧ v ∈ [3, 1, 2] ∧ ∀ x ∈ [3, 1, 2], v ≤ x)
    ∧ ∃ v : ℚ,
      aggregate_next_from sch1 [] [.aggregateFunction "max" .max [column_evaluator 0] .float64]
          (.ok (some bAq))
        = .ok (some ⟨sch1, [.float64 [v]]⟩) ∧ v ∈ [3, 1, 2] ∧ ∀ x ∈ [3, 1, 2], x ≤ v :=
  ⟨c1_no_group_min_max.1 sch1 "min" (column_evaluator 0) bA [3, 1, 2] rfl (by decide),
   c1_no_group_min_max.2.1 sch1 "max" (column_evaluator 0) bA [3, 1, 2] rfl (by decide),
   c1_no_group_min_max.2.2.1 sch1 "min" (column_evaluator 0) bAq [3, 1, 2] rfl (by decide),
   c1_no_group_min_max.2.2.2 sch1 "max" (column_evaluator 0) bAq [3, 1, 2] rfl (by decide)⟩

/-- C2 evaluated at a failing input: grouping `bC2` (group keys `[1, 1]`, values
`[3, 4]`) by column 0 with a MIN aggregate over column 1.  The claim (and the
spec) require one row per distinct group key (here one row) and the group-by
columns followed by the aggregate result columns (here two columns); the code
instead emits the full evaluated group-by column — one row per input row,
duplicates included — and no aggregate column at all, because the
materialization loop over the grouping map is an empty TODO. -/
theorem c2_grouped_materialization_divergence :
    aggregate_next_from sch2 gexpr aexprV (.ok (some bC2))
      = .ok (some ⟨sch2, [.int32 [1, 1]]⟩) := by decide

/-- C3 counterexample: with group-by expressions configured and the two-batch
input `[b1, b2]`, a single `next()` call already yields its output batch while
the second input batch is still unpulled — the call does not drain the input to
exhaustion before yielding, contradicting the claim. -/
theorem c3_counterexample :
    aggregate_next sch2 gexpr aexprV [b1, b2]
      = (.ok (some ⟨sch2, [.int32 [7, 7]]⟩), [b2]) := by decide

/-- C3 amended: with at least one group-by expression, a single `next()` call
pulls exactly one input batch, accumulates grouping state only within that
batch (the grouping map is local to the call), and yields one output batch per
call; the remaining input is left for later calls. -/
theorem c3_grouped_one_batch_per_call (sch : Schema)
    (group_expr aggr_expr : List RuntimeExpr) (hg : group_expr ≠ [])
    (b : RecordBatch) (rest : List RecordBatch) :
    aggregate_next sch group_expr aggr_expr (b :: rest)
      = (aggregate_with_groups sch group_expr aggr_expr b, rest) := by
  have h : group_expr.isEmpty = false := by
    cases group_expr with
    | nil => exact absurd rfl hg
    | cons x xs => rfl
  simp [aggregate_next, pull_batch, aggregate_next_from, h]

/-- Witness for C3 amended, on the two-batch grouped input. -/
theorem c3_grouped_one_batch_per_call_witness :
    aggregate_next sch2 gexpr aexprV [b1, b2]
      = (aggregate_with_groups sch2 gexpr aexprV b1, [b2]) :=
  c3_grouped_one_batch_per_call sch2 gexpr aexprV
    (by unfold gexpr; exact List.cons_ne_nil _ _) b1 [b2]

/-- C4 counterexample: in the no-group-by case, over the two-batch input
`[bA, bB]` the operator yields a non-empty result batch on the first call and
another non-empty result batch on the second call (covering the second input
batch), so across its lifetime it yields more than one non-empty result and
they do not all cover the first input batch, contradicting the claim. -/
theorem c4_counterexample :
    aggregate_next sch1 [] aexprMin [bA, bB]
        = (.ok (some ⟨sch1, [.int32 [1]]⟩), [bB])
      ∧ aggregate_next sch1 [] aexprMin [bB]
        = (.ok (some ⟨sch1, [.int32 [5]]⟩), []) := by
  exact ⟨by decide, by decide⟩

/-- C4 amended: in the no-group-by case each `next()` call consumes exactly one
input batch and yields one non-empty single-row result covering exactly that
batch; in particular the first call's result covers exactly the first input
batch, and the rest of the input is left for later calls (each of which yields
its own result the same way). -/
theorem c4_one_result_per_batch (sch : Schema) (nm : String)
    (ev : RecordBatch → Except ExecutionError ArrayData) (batch : RecordBatch)
    (rest : List RecordBatch) (vs : List Int)
    (hev : ev batch = .ok (.int32 vs)) (hne : vs ≠ []) :
    ∃ v : Int,
      aggregate_next sch [] [.aggregateFunction nm .min [ev] .int32] (batch :: rest)
        = (.ok (some ⟨sch, [.int32 [v]]⟩), rest) ∧ v ∈ vs ∧ ∀ x ∈ vs, v ≤ x := by
  obtain ⟨v, h1, h2, h3⟩ := no_group_min_int32 sch nm ev batch vs hev hne
  refine ⟨v, ?_, h2, h3⟩
  simp only [aggregate_next, pull_batch]
  rw [h1]

/-- Witness for C4 amended, on the first batch of the two-batch input. -/
theorem c4_one_result_per_batch_witness :
    ∃ v : Int,
      aggregate_next sch1 [] [.aggregateFunction "min" .min [column_evaluator 0] .int32]
          [bA, bB]
        = (.ok (some ⟨sch1, [.int32 [v]]⟩), [bB]) ∧ v ∈ [3, 1, 2] ∧ ∀ x ∈ [3, 1, 2], v ≤ x :=
  c4_one_result_per_batch sch1 "min" (column_evaluator 0) bA [bB] [3, 1, 2] rfl (by decide)

/-- C5 evaluated at failing inputs: in the grouped path, an unsupported scalar
type in a group key (here Float64) hits the `unimplemented` arm and an
unsupported aggregate function kind (here MAX, whose accumulator constructor is
commented out) hits a `panic` arm — both abort instead of returning an error
value, contradicting the claim.  Only the grouping-free path returns the
distinct NotImplemented error the claim describes (third conjunct, SUM). -/
theorem c5_grouped_unsupported_aborts :
    aggregate_next_from schF gexprF aexprF (.ok (some bF))
        = .panic "unimplemented group key type"
    ∧ aggregate_next_from sch2 gexpr aexprMax (.ok (some bC2))
        = .panic "unsupported aggregate function kind"
    ∧ aggregate_next_from sch1 [] aexprSum (.ok (some bA))
        = .err (.notImplemented "Unsupported aggregate function") := by
  exact ⟨by decide, by decide, by decide⟩

theorem replace_group_keys (m : GroupMap) (key : List GroupByScalar)
    (entry : AggregateEntry) :
    group_keys_of (replace_group m key entry) = group_keys_of m := by
  induction m with
  | nil => rfl
  | cons p ps ih =>
    have hhead : (if p.1 == key then (p.1, entry) else p).1 = p.1 := by
      by_cases h : (p.1 == key) = true
      · rw [if_pos h]
      · rw [if_neg h]
    have htail : group_keys_of (replace_group ps key entry) = group_keys_of ps := ih
    simp only [replace_group, group_keys_of, List.map_cons] at htail ⊢
    rw [hhead, htail]

theorem lookup_group_mem (m : GroupMap) (key : List GroupByScalar) (e : AggregateEntry)
    (h : lookup_group m key = some e) : key ∈ group_keys_of m := by
  induction m with
  | nil => simp [lookup_group, List.find?] at h
  | cons p ps ih =>
    rw [group_keys_of, List.map_cons, List.mem_cons]
    by_cases hp : p.1 = key
    · exact Or.inl hp.symm
    · have hb : (p.1 == key) = false := beq_eq_false_iff_ne.mpr hp
      refine Or.inr (ih ?_)
      simpa [lookup_group, List.find?, hb] using h

theorem process_row_keys (batch : RecordBatch) (gkeys : List ArrayData)
    (aggr : List RuntimeExpr) (row : Nat) (m m2 : GroupMap)
    (h : process_row batch gkeys aggr row m = .ok m2) :
    (∀ k, k ∈ group_keys_of m → k ∈ group_keys_of m2)
    ∧ ∃ key, key_for_row gkeys row = .ok key ∧ key ∈ group_keys_of m2 := by
  cases hk : key_for_row gkeys row with
  | err e =>
    simp only [process_row, hk] at h
    exact Outcome.noConfusion h
  | panic s =>
    simp only [process_row, hk] at h
    exact Outcome.noConfusion h
  | ok key =>
    simp only [process_row, hk] at h
    cases hl : lookup_group m key with
    | some entry =>
      simp only [hl] at h
      cases hu : update_accumulators batch row entry aggr with
      | ok entry2 =>
        simp only [hu] at h
        cases h
        constructor
        · intro k hkm
          rw [replace_group_keys]
          exact hkm
        · refine ⟨key, rfl, ?_⟩
          rw [replace_group_keys]
          exact lookup_group_mem m key entry hl
      | err e =>
        simp only [hu] at h
        exact Outcome.noConfusion h
      | panic s =>
        simp only [hu] at h
        exact Outcome.noConfusion h
    | none =>
      simp only [hl] at h
      cases hc : create_aggregate_entry aggr with
      | ok entry =>
        simp only [hc] at h
        cases hu : update_accumulators batch row entry aggr with
        | ok entry2 =>
          simp only [hu] at h
          cases h
          constructor
          · intro k hkm
            simp only [group_keys_of, List.map_append, List.mem_append]
            exact Or.inl hkm
          · refine ⟨key, rfl, ?_⟩
            simp [group_keys_of]
        | err e =>
          simp only [hu] at h
          exact Outcome.noConfusion h
        | panic s =>
          simp only [hu] at h
          exact Outcome.noConfusion h
      | err e =>
        simp only [hc] at h
        exact Outcome.noConfusion h
      | panic s =>
        simp only [hc] at h
        exact Outcome.noConfusion h

theorem process_rows_go_spec (batch : RecordBatch) (gkeys : List ArrayData)
    (aggr : List RuntimeExpr) :
    ∀ (count row : Nat) (m m' : GroupMap),
      process_rows_go batch gkeys aggr count row m = .ok m' →
      (∀ k, k ∈ group_keys_of m → k ∈ group_keys_of m')
      ∧ ∀ r, row ≤ r → r < row + count →
          ∃ key, key_for_row gkeys r = .ok key ∧ key ∈ group_keys_of m' := by
  intro count
  induction count with
  | zero =>
    intro row m m' h
    simp only [process_rows_go] at h
    cases h
    exact ⟨fun k hk => hk, fun r hr1 hr2 => absurd hr2 (by omega)⟩
  | succ n ih =>
    intro row m m' h
    simp only [process_rows_go] at h
    cases hp : process_row batch gkeys aggr row m with
    | ok m2 =>
      rw [hp] at h
      obtain ⟨ha, hb⟩ := ih (row + 1) m2 m' h
      obtain ⟨hpa, key, hkey, hkm⟩ := process_row_keys batch gkeys aggr row m m2 hp
      refine ⟨fun k hk => ha k (hpa k hk), ?_⟩
      intro r hr1 hr2
      rcases Nat.eq_or_lt_of_le hr1 with heq | hlt
      · exact heq ▸ ⟨key, hkey, ha key hkm⟩
      · exact hb r hlt (by omega)
    | err e => rw [hp] at h; exact Outcome.noConfusion h
    | panic s => rw [hp] at h; exact Outcome.noConfusion h

theorem get?_findIdx_beq {α : Type} [BEq α] [LawfulBEq α] (l : List α) (k : α)
    (h : k ∈ l) :
    l.get? (l.findIdx (fun a => a == k)) = some k := by
  induction l with
  | nil => cases h
  | cons x xs ih =>
    cases hbk : x == k with
    | true =>
      have hx : x = k := eq_of_beq hbk
      rw [List.findIdx_cons, hbk]
      simp [hx]
    | false =>
      rw [List.findIdx_cons, hbk]
      simp only [cond_false]
      rcases List.mem_cons.mp h with h1 | h1
      · subst h1
        simp at hbk
      · simpa [List.get?] using ih h1

theorem findIdx_map {α β : Type} (f : α → β) (p : β → Bool) (l : List α) :
    (l.map f).findIdx p = l.findIdx (fun a => p (f a)) := by
  induction l with
  | nil => rfl
  | cons x xs ih => simp [List.findIdx_cons, ih]

theorem entry_slot_eq (m : GroupMap) (key : List GroupByScalar) :
    entry_slot m key = (group_keys_of m).findIdx (fun a => a == key) := by
  rw [entry_slot, group_keys_of, findIdx_map]

/-- C6: within one aggregation pass with group-by expressions (in this code,
the grouped loop one `next()` call runs over the batch it pulled), two rows of
the input are accumulated into the same Group Entry — they hit the same slot of
the grouping map, whose entry the source mutates in place — if and only if
their group-key tuples (one scalar per group-by expression, in declaration
order) are structurally equal; key construction succeeds exactly for Int32 and
Utf8 group columns, which the success hypothesis covers. -/
theorem c6_same_entry_iff_equal_keys (batch : RecordBatch)
    (group_by_keys : List ArrayData) (aggr_expr : List RuntimeExpr) (m : GroupMap)
    (hm : process_rows batch group_by_keys aggr_expr = .ok m)
    (i j : Nat) (hi : i < batch.numRows) (hj : j < batch.numRows)
    (ki kj : List GroupByScalar)
    (hki : key_for_row group_by_keys i = .ok ki)
    (hkj : key_for_row group_by_keys j = .ok kj) :
    entry_slot m ki = entry_slot m kj ↔ ki = kj := by
  have hspec := (process_rows_go_spec batch group_by_keys aggr_expr
    batch.numRows 0 [] m hm).2
  have hmemi : ki ∈ group_keys_of m := by
    obtain ⟨k, hk1, hk2⟩ := hspec i (Nat.zero_le i) (by omega)
    rw [hki] at hk1
    cases hk1
    exact hk2
  have hmemj : kj ∈ group_keys_of m := by
    obtain ⟨k, hk1, hk2⟩ := hspec j (Nat.zero_le j) (by omega)
    rw [hkj] at hk1
    cases hk1
    exact hk2
  constructor
  · intro hslot
    have h1 := get?_findIdx_beq (group_keys_of m) ki hmemi
    have h2 := get?_findIdx_beq (group_keys_of m) kj hmemj
    rw [entry_slot_eq, entry_slot_eq] at hslot
    rw [hslot, h2] at h1
    exact (Option.some.inj h1).symm
  · intro h
    rw [h]

/-- Witness for C6: on the key column `[1, 2, 1]`, rows 0 and 1 carry different
keys and indeed hit different slots of the resulting map. -/
theorem c6_same_entry_iff_equal_keys_witness :
    entry_slot mW [GroupByScalar.int32 1] = entry_slot mW [GroupByScalar.int32 2]
      ↔ [GroupByScalar.int32 1] = [GroupByScalar.int32 2] :=
  c6_same_entry_iff_equal_keys bW gkW aexprMin mW (by decide) 0 1 (by decide) (by decide)
    [GroupByScalar.int32 1] [GroupByScalar.int32 2] rfl rfl

/-- C7: for a non-exhausted input batch on which all configured evaluators
succeed, the projection's `next()` returns a batch whose columns are exactly the
evaluators' outputs in declaration order, under a schema built fresh from each
evaluator's declared name and type with every field nullable; and projecting
the compiled `Column(i)` evaluator reproduces input column `i` verbatim, with
input field `i`'s name and type. -/
theorem c7_projection_columns :
    (∀ (expr : List RuntimeExpr) (batch : RecordBatch) (cols : List ArrayData),
        exceptMapM (fun e => e.get_func batch) expr = .ok cols →
        project_next_from expr (.ok (some batch))
          = .ok (some ⟨expr.map (fun e => ⟨e.get_name, e.get_type, true⟩), cols⟩))
    ∧ ∀ (batch : RecordBatch) (i : Nat) (hc : i < batch.columns.length)
        (hs : i < batch.schema.length),
        project_next_from [compile_column batch.schema i] (.ok (some batch))
          = .ok (some ⟨[⟨(batch.schema.get ⟨i, hs⟩).name,
                         (batch.schema.get ⟨i, hs⟩).dataType, true⟩],
                       [batch.columns.get ⟨i, hc⟩]⟩) := by
  constructor
  · intro expr batch cols h
    simp [project_next_from, h]
  · intro batch i hc hs
    have h1 : batch.columns[i]? = some (batch.columns.get ⟨i, hc⟩) := by
      rw [List.getElem?_eq_getElem hc]
      rfl
    have h2 : batch.schema[i]?.getD default = batch.schema.get ⟨i, hs⟩ := by
      rw [List.getElem?_eq_getElem hs]
      rfl
    simp [project_next_from, exceptMapM, compile_column, RuntimeExpr.get_func,
      RuntimeExpr.get_name, RuntimeExpr.get_type, column_evaluator, h1, h2]

/-- Witness for C7: projecting `Column(0)` over the concrete batch `bC2`
reproduces its first column under its first field's name and type. -/
theorem c7_projection_columns_witness :
    project_next_from [compile_column sch2 0] (.ok (some bC2))
      = .ok (some ⟨[⟨"g", DataType.int32, true⟩], [ArrayData.int32 [1, 1]]⟩) :=
  c7_projection_columns.2 bC2 0 (by decide) (by decide)

theorem exceptMapM_append_error {α β : Type} (f : α → Except ExecutionError β)
    (pre : List α) (bad : α) (post : List α) (e0 : ExecutionError)
    (hpre : ∀ x ∈ pre, ∃ c, f x = .ok c) (hbad : f bad = .error e0) :
    exceptMapM f (pre ++ bad :: post) = .error e0 := by
  induction pre with
  | nil => simp [exceptMapM, hbad]
  | cons x xs ih =>
    obtain ⟨c, hc⟩ := hpre x (List.mem_cons_self x xs)
    have ih2 := ih (fun y hy => hpre y (List.mem_cons_of_mem x hy))
    simp [exceptMapM, hc, ih2]

/-- C8: if any single configured evaluator fails during a projection `next()`
call (all evaluators before it succeeding), the call returns that evaluator's
error and produces no output batch — the first evaluator error short-circuits
the rest of the call. -/
theorem c8_projection_error_short_circuit (pre post : List RuntimeExpr)
    (bad : RuntimeExpr) (batch : RecordBatch) (e0 : ExecutionError)
    (hpre : ∀ e ∈ pre, ∃ c, e.get_func batch = .ok c)
    (hbad : bad.get_func batch = .error e0) :
    project_next_from (pre ++ bad :: post) (.ok (some batch)) = .err e0 := by
  have h := exceptMapM_append_error (fun e => e.get_func batch) pre bad post e0 hpre hbad
  simp [project_next_from, h]

/-- Witness for C8: a failing evaluator between two succeeding ones aborts the
whole call with exactly its error. -/
theorem c8_projection_error_short_circuit_witness :
    project_next_from [compile_column sch2 0, failing_expr, compile_column sch2 1]
        (.ok (some bC2)) = .err (.general "boom") :=
  c8_projection_error_short_circuit [compile_column sch2 0] [compile_column sch2 1]
    failing_expr bC2 (.general "boom")
    (by
      intro e he
      rw [List.mem_singleton] at he
      subst he
      exact ⟨.int32 [1, 1], rfl⟩)
    rfl

/-- C9: for both the aggregate and the projection operator, when the upstream
pull returns Ok(None) the operator's `next()` returns Ok(None), and when the
upstream pull returns an error the operator returns that same error unchanged
(the `?` operator on the input pull). -/
theorem c9_exhaustion_and_error_propagation (sch : Schema)
    (group_expr aggr_expr proj_expr : List RuntimeExpr) (e : ExecutionError) :
    aggregate_next_from sch group_expr aggr_expr (.ok none) = .ok none
    ∧ aggregate_next_from sch group_expr aggr_expr (.err e) = .err e
    ∧ project_next_from proj_expr (.ok none) = .ok none
    ∧ project_next_from proj_expr (.err e) = .err e :=
  ⟨rfl, rfl, rfl, rfl⟩

theorem min_accumulate_foldl (dt : DataType) (vals : List (Option ScalarValue)) :
    vals.foldl MinFunction.accumulate (MinFunction.new dt) = MinFunction.new dt := by
  induction vals with
  | nil => rfl
  | cons v vs ih => exact ih

/-- C10: the reference MIN accumulator's update step is a no-op — for every
data type and every finite sequence of `accumulate` calls with any optional
scalar values, the stored state is unchanged, so `result()` returns `none` and
the data type is the one given at construction. -/
theorem c10_min_accumulate_noop (dt : DataType) (vals : List (Option ScalarValue)) :
    vals.foldl MinFunction.accumulate (MinFunction.new dt) = MinFunction.new dt
    ∧ (vals.foldl MinFunction.accumulate (MinFunction.new dt)).result = none
    ∧ (vals.foldl MinFunction.accumulate (MinFunction.new dt)).data_type = dt := by
  have h := min_accumulate_foldl dt vals
  exact ⟨h, by rw [h]; rfl, by rw [h]; rfl⟩

end DF
